import Mathlib

/-
Shallow embedding of goenning/sqlcertcache (src/sqlcertcache.go, the map-backed
variant at lines 110-194): a write-through certificate cache in front of a SQL
table, offering New / Get / Put / Delete.

Modelling choices:
- Payloads (Go []byte) are lists of byte values (List Nat).
- The durable table is a list of (key, data) rows; the SQL statements the code
  issues are given executable semantics over that list. `QueryRowContext` with
  the unparameterized `SELECT data FROM t` yields the first row of the table,
  or sql.ErrNoRows when the table is empty.
- Each store round-trip may fail; an `Outcome` argument per round-trip injects
  the driver's success or error (errors carry an opaque numeric code).
- Each operation returns the new cache state, the trace of SQL commands it
  issued, and its result, mirroring the Go control flow statement by statement.
- The Go map `certs` is an association list with shadowing insert; the mutex
  is not modelled (operations are whole critical sections).
-/

set_option maxHeartbeats 1000000

namespace Sqlcertcache

/-- Payload bytes (Go `[]byte`), modelled as a list of byte values. -/
abbrev Data := List Nat

/-- Outcome of one store round-trip: the driver succeeds, or reports an error
identified by an opaque code. -/
inductive Outcome where
  | ok : Outcome
  | err : Nat → Outcome
deriving DecidableEq, Repr

/-- SQL commands the cache can issue against the store, recorded in traces. -/
inductive SqlOp where
  | createTable : String → SqlOp
  | selectAll : SqlOp
  | update : String → Data → SqlOp
  | insert : String → Data → SqlOp
  | deleteRow : String → SqlOp
deriving DecidableEq, Repr

/-- The durable table: a sequence of (key, data) rows. -/
structure DB where
  rows : List (String × Data)
deriving DecidableEq, Repr

/-- Semantics of `SELECT data FROM t` under `QueryRowContext` + `Scan`: the
first row's data, or `none` (sql.ErrNoRows) when the table is empty. The
query text has no WHERE clause, so no key takes part. -/
def dbSelectFirst (db : DB) : Option Data :=
  db.rows.head?.map Prod.snd

/-- Semantics of `UPDATE t SET data = $2 WHERE key = $1`: rewrite every row
whose key matches and report the number of rows affected. -/
def dbUpdate (db : DB) (key : String) (data : Data) : DB × Nat :=
  (⟨db.rows.map fun p => if p.1 = key then (key, data) else p⟩,
    (db.rows.filter fun p => p.1 = key).length)

/-- Semantics of `INSERT INTO t (key, data) VALUES($1, $2)`: append a row. -/
def dbInsert (db : DB) (key : String) (data : Data) : DB :=
  ⟨db.rows ++ [(key, data)]⟩

/-- Semantics of `DELETE FROM t WHERE key = $1`: drop every matching row. -/
def dbDelete (db : DB) (key : String) : DB :=
  ⟨db.rows.filter fun p => p.1 ≠ key⟩

/-- Go map read `m[key]` with its presence flag: the value bound to `key`,
`none` when absent. -/
def mapLookup : List (String × Data) → String → Option Data
  | [], _ => none
  | p :: rest, key => if p.1 = key then some p.2 else mapLookup rest key

/-- Go `delete(m, key)`. -/
def mapErase (m : List (String × Data)) (key : String) : List (String × Data) :=
  m.filter fun p => p.1 ≠ key

/-- Go map write `m[key] = v`: the new binding replaces any previous one. -/
def mapInsert (m : List (String × Data)) (key : String) (v : Data) :
    List (String × Data) :=
  (key, v) :: mapErase m key

/-- Observable state of a `Cache`: the in-memory `certs` map and the table. -/
structure CacheState where
  certs : List (String × Data)
  db : DB
deriving DecidableEq, Repr

/-- Result of `Get`: the autocert.ErrCacheMiss sentinel, or a store error. -/
inductive GetErr where
  | cacheMiss : GetErr
  | storeErr : Nat → GetErr
deriving DecidableEq, Repr

/-- Embedding of `Cache.Get` (sqlcertcache.go:135-150): consult the in-memory
map first; on a miss run the stored `getQuery` (`SELECT data FROM t`, no key
parameter) and turn sql.ErrNoRows into the cache-miss sentinel. The fetched
value is not written back into the map. `fetch` injects the round-trip's
driver outcome. Returns (state, issued SQL trace, result). -/
def Get (s : CacheState) (key : String) (fetch : Outcome) :
    CacheState × List SqlOp × Except GetErr Data :=
  match mapLookup s.certs key with
  | some data => (s, [], Except.ok data)
  | none =>
    match fetch with
    | Outcome.err c => (s, [SqlOp.selectAll], Except.error (GetErr.storeErr c))
    | Outcome.ok =>
      match dbSelectFirst s.db with
      | none => (s, [SqlOp.selectAll], Except.error GetErr.cacheMiss)
      | some data => (s, [SqlOp.selectAll], Except.ok data)

/-- Embedding of `Cache.Put` (sqlcertcache.go:153-176): run `updateQuery`; if
it fails return the error; otherwise inspect RowsAffected (which may itself
fail); if zero rows were affected run `insertQuery` and return its error on
failure; only after the store steps succeed write `certs[key] = data`.
`upd`, `rowsAff`, `ins` inject the driver outcome of each fallible step. -/
def Put (s : CacheState) (key : String) (data : Data)
    (upd rowsAff ins : Outcome) : CacheState × List SqlOp × Option Nat :=
  match upd with
  | Outcome.err c => (s, [SqlOp.update key data], some c)
  | Outcome.ok =>
    match rowsAff with
    | Outcome.err c =>
      ({ s with db := (dbUpdate s.db key data).1 },
        [SqlOp.update key data], some c)
    | Outcome.ok =>
      if (dbUpdate s.db key data).2 = 0 then
        match ins with
        | Outcome.err c =>
          ({ s with db := (dbUpdate s.db key data).1 },
            [SqlOp.update key data, SqlOp.insert key data], some c)
        | Outcome.ok =>
          ({ certs := mapInsert s.certs key data,
             db := dbInsert (dbUpdate s.db key data).1 key data },
            [SqlOp.update key data, SqlOp.insert key data], none)
      else
        ({ certs := mapInsert s.certs key data,
           db := (dbUpdate s.db key data).1 },
          [SqlOp.update key data], none)

/-- Embedding of `Cache.Delete` (sqlcertcache.go:180-194): remove the key from
the in-memory map if present (before the store round-trip), then run
`deleteQuery`; a store failure is returned, zero rows affected is not an
error. `del` injects the driver outcome of the round-trip. -/
def Delete (s : CacheState) (key : String) (del : Outcome) :
    CacheState × List SqlOp × Option Nat :=
  match del with
  | Outcome.err c =>
    ({ s with
        certs :=
          if (mapLookup s.certs key).isSome then mapErase s.certs key
          else s.certs },
      [SqlOp.deleteRow key], some c)
  | Outcome.ok =>
    ({ certs :=
        if (mapLookup s.certs key).isSome then mapErase s.certs key
        else s.certs,
       db := dbDelete s.db key }, [SqlOp.deleteRow key], none)

/-- Error taxonomy of `New`: blank table name, or a bootstrap store error. -/
inductive NewErr where
  | configError : NewErr
  | storeErr : Nat → NewErr
deriving DecidableEq, Repr

/-- The constructed cache value (sqlcertcache.go:98-106): the empty in-memory
map and the four precomputed query strings. -/
structure Cache where
  certs : List (String × Data)
  getQuery : String
  insertQuery : String
  updateQuery : String
  deleteQuery : String
deriving DecidableEq, Repr

/-- Go `strings.TrimSpace`, modelled over the character list: leading and
trailing whitespace characters removed. -/
def trimSpace (s : String) : String :=
  ⟨((s.data.dropWhile Char.isWhitespace).reverse.dropWhile
      Char.isWhitespace).reverse⟩

/-- Embedding of `New` (sqlcertcache.go:110-131): reject a table name that is
blank after TrimSpace without touching the store; otherwise issue the
`create table if not exists` bootstrap (whose driver outcome `create`
injects) and on success return the cache with an empty map and the four
query strings formatted against the table name. -/
def New (tableName : String) (create : Outcome) :
    List SqlOp × Except NewErr Cache :=
  if trimSpace tableName = "" then
    ([], Except.error NewErr.configError)
  else
    match create with
    | Outcome.err c =>
      ([SqlOp.createTable tableName], Except.error (NewErr.storeErr c))
    | Outcome.ok =>
      ([SqlOp.createTable tableName],
        Except.ok
          { certs := []
            getQuery := "SELECT data FROM " ++ tableName
            insertQuery :=
              "INSERT INTO " ++ tableName ++ " (key, data) VALUES($1, $2)"
            updateQuery :=
              "UPDATE " ++ tableName ++ " SET data = $2 WHERE key = $1"
            deleteQuery := "DELETE FROM " ++ tableName ++ " WHERE key = $1" })

/-- One consumer-visible call, with its injected driver outcomes. -/
inductive Op where
  | getOp : String → Outcome → Op
  | putOp : String → Data → Outcome → Outcome → Outcome → Op
  | delOp : String → Outcome → Op
deriving DecidableEq, Repr

/-- State transition of one call (the state component of the operation). -/
def step (s : CacheState) : Op → CacheState
  | Op.getOp k o => (Get s k o).1
  | Op.putOp k v o1 o2 o3 => (Put s k v o1 o2 o3).1
  | Op.delOp k o => (Delete s k o).1

/-- State after running a sequence of calls from `s`. -/
def run (s : CacheState) (ops : List Op) : CacheState :=
  ops.foldl step s

/-- The key an operation Puts, if it is a Put. -/
def opPutKey : Op → Option String
  | Op.putOp k _ _ _ _ => some k
  | _ => none

/-- All keys that were the target of some Put in the sequence. -/
def putKeys (ops : List Op) : List String :=
  ops.filterMap opPutKey

/-- Keys currently bound in an in-memory map. -/
def mapKeys (m : List (String × Data)) : List String :=
  m.map Prod.fst

/-- An operation does not interfere with the key `k`: it is a Get (of any
key), or a Put or Delete of some other key. -/
def opAvoids (op : Op) (k : String) : Bool :=
  match op with
  | Op.getOp _ _ => true
  | Op.putOp j _ _ _ _ => j ≠ k
  | Op.delOp j _ => j ≠ k

/-- Looking up the erased key finds nothing. -/
theorem mapLookup_mapErase_self (m : List (String × Data)) (k : String) :
    mapLookup (mapErase m k) k = none := by
  induction m with
  | nil => rfl
  | cons p rest ih =>
    by_cases h : p.1 = k
    · simpa [mapErase, List.filter_cons, h] using ih
    · simpa [mapErase, mapLookup, List.filter_cons, h] using ih

/-- Erasing one key does not disturb lookups of other keys. -/
theorem mapLookup_mapErase_ne (m : List (String × Data)) (k j : String)
    (h : j ≠ k) : mapLookup (mapErase m k) j = mapLookup m j := by
  induction m with
  | nil => rfl
  | cons p rest ih =>
    by_cases hp : p.1 = k
    · have hkj : ¬ k = j := fun hc => h hc.symm
      simpa [mapErase, mapLookup, List.filter_cons, hp, hkj] using ih
    · by_cases hj : p.1 = j
      · simp [mapErase, mapLookup, List.filter_cons, hp, hj, h]
      · simpa [mapErase, mapLookup, List.filter_cons, hp, hj] using ih

/-- Looking up the just-written key finds the written value. -/
theorem mapLookup_mapInsert_self (m : List (String × Data)) (k : String)
    (v : Data) : mapLookup (mapInsert m k v) k = some v := by
  simp [mapInsert, mapLookup]

/-- Writing one key does not disturb lookups of other keys. -/
theorem mapLookup_mapInsert_ne (m : List (String × Data)) (k j : String)
    (v : Data) (h : j ≠ k) :
    mapLookup (mapInsert m k v) j = mapLookup m j := by
  have h1 := mapLookup_mapErase_ne m k j h
  have hk : ¬ k = j := fun hc => h hc.symm
  simpa [mapInsert, mapLookup, hk] using h1

/-- A key bound after an erase was bound before. -/
theorem mem_mapKeys_mapErase (m : List (String × Data)) (k j : String)
    (h : j ∈ mapKeys (mapErase m k)) : j ∈ mapKeys m := by
  simp only [mapKeys, mapErase] at h
  obtain ⟨p, hp, hj⟩ := List.mem_map.mp h
  exact List.mem_map.mpr ⟨p, (List.mem_filter.mp hp).1, hj⟩

/-- A key bound after a write was the written key or was bound before. -/
theorem mem_mapKeys_mapInsert (m : List (String × Data)) (k j : String)
    (v : Data) (h : j ∈ mapKeys (mapInsert m k v)) :
    j = k ∨ j ∈ mapKeys m := by
  simp only [mapKeys, mapInsert, List.map_cons] at h
  rcases List.mem_cons.mp h with h1 | h1
  · exact Or.inl h1
  · exact Or.inr (mem_mapKeys_mapErase m k j h1)

/-- Get never changes the cache state (no read-through population). -/
theorem Get_state (s : CacheState) (k : String) (o : Outcome) :
    (Get s k o).1 = s := by
  unfold Get
  split
  · rfl
  · split
    · rfl
    · split <;> rfl

/-- Put either succeeds and writes `certs[key] = data`, or fails and leaves
the in-memory map untouched. -/
theorem Put_cases (s : CacheState) (k : String) (v : Data)
    (o1 o2 o3 : Outcome) :
    (Put s k v o1 o2 o3).2.2 = none ∧
      (Put s k v o1 o2 o3).1.certs = mapInsert s.certs k v ∨
    (Put s k v o1 o2 o3).2.2 ≠ none ∧
      (Put s k v o1 o2 o3).1.certs = s.certs := by
  unfold Put
  cases o1 with
  | err c => simp
  | ok =>
    cases o2 with
    | err c => simp
    | ok =>
      by_cases h : (dbUpdate s.db k v).2 = 0
      · cases o3 with
        | err c => simp [h]
        | ok => simp [h]
      · simp [h]

/-- The certs map after Delete, whatever the store outcome. -/
theorem Delete_certs (s : CacheState) (k : String) (o : Outcome) :
    (Delete s k o).1.certs =
      if (mapLookup s.certs k).isSome then mapErase s.certs k
      else s.certs := by
  cases o <;> rfl

/-- After the UPDATE statement, every row holding the key holds the data. -/
theorem dbUpdate_rows (db : DB) (k : String) (v : Data) :
    ∀ p ∈ (dbUpdate db k v).1.rows, p.1 = k → p.2 = v := by
  intro p hp hk
  simp only [dbUpdate] at hp
  obtain ⟨q, _, hqe⟩ := List.mem_map.mp hp
  by_cases h : q.1 = k
  · rw [if_pos h] at hqe
    rw [← hqe]
  · rw [if_neg h] at hqe
    exact absurd (hqe ▸ hk) h

/-- After a successful Put, every store row holding the key holds the data. -/
theorem Put_db_rows (s : CacheState) (k : String) (v : Data)
    (o1 o2 o3 : Outcome) (h : (Put s k v o1 o2 o3).2.2 = none) :
    ∀ p ∈ (Put s k v o1 o2 o3).1.db.rows, p.1 = k → p.2 = v := by
  unfold Put at h ⊢
  cases o1 with
  | err c => simp at h
  | ok =>
    cases o2 with
    | err c => simp at h
    | ok =>
      by_cases hn : (dbUpdate s.db k v).2 = 0
      · cases o3 with
        | err c => simp [hn] at h
        | ok =>
          simp only [hn, if_pos]
          intro p hp hk
          simp [dbInsert] at hp
          rcases hp with hp | hp
          · exact dbUpdate_rows s.db k v p hp hk
          · rw [hp]
      · simp only [hn, if_neg, ite_false]
        intro p hp hk
        exact dbUpdate_rows s.db k v p hp hk

/-- A key bound in memory after one call was bound before, or is the key of
that Put call. -/
theorem step_keys (s : CacheState) (op : Op) (j : String)
    (h : j ∈ mapKeys (step s op).certs) :
    j ∈ mapKeys s.certs ∨ opPutKey op = some j := by
  cases op with
  | getOp k o =>
    rw [step, Get_state] at h
    exact Or.inl h
  | putOp k v o1 o2 o3 =>
    rw [step] at h
    rcases Put_cases s k v o1 o2 o3 with ⟨_, hc⟩ | ⟨_, hc⟩
    · rw [hc] at h
      rcases mem_mapKeys_mapInsert s.certs k j v h with hj | hj
      · exact Or.inr (by simp [opPutKey, hj])
      · exact Or.inl hj
    · rw [hc] at h
      exact Or.inl h
  | delOp k o =>
    rw [step, Delete_certs] at h
    by_cases hp : (mapLookup s.certs k).isSome
    · rw [if_pos hp] at h
      exact Or.inl (mem_mapKeys_mapErase s.certs k j h)
    · rw [if_neg hp] at h
      exact Or.inl h

/-- A key bound in memory after a run was bound at the start, or was the
target of some Put in the run. -/
theorem run_keys (ops : List Op) : ∀ (s : CacheState) (j : String),
    j ∈ mapKeys (run s ops).certs →
    j ∈ mapKeys s.certs ∨ j ∈ putKeys ops := by
  induction ops with
  | nil =>
    intro s j h
    exact Or.inl (by simpa [run] using h)
  | cons op rest ih =>
    intro s j h
    have h1 : j ∈ mapKeys (run (step s op) rest).certs := by
      simpa [run, List.foldl_cons] using h
    rcases ih (step s op) j h1 with h2 | h2
    · rcases step_keys s op j h2 with h3 | h3
      · exact Or.inl h3
      · refine Or.inr ?hf
        simp [putKeys, List.filterMap_cons, h3]
    · refine Or.inr ?hg
      simp only [putKeys, List.filterMap_cons]
      cases opPutKey op <;> simp [putKeys] at h2 ⊢ <;> simp [h2]

/-- One call that is not a Put of `k` and not a Delete of `k` preserves the
in-memory binding of `k`. -/
theorem step_preserves_lookup (s : CacheState) (op : Op) (k : String)
    (v : Data) (hop : opAvoids op k = true)
    (h : mapLookup s.certs k = some v) :
    mapLookup (step s op).certs k = some v := by
  cases op with
  | getOp j o =>
    rw [step, Get_state]
    exact h
  | putOp j w o1 o2 o3 =>
    have hj : k ≠ j := by
      simp only [opAvoids, ne_eq, decide_not, Bool.not_eq_true',
        decide_eq_false_iff_not] at hop
      exact fun hc => hop hc.symm
    rw [step]
    rcases Put_cases s j w o1 o2 o3 with ⟨_, hc⟩ | ⟨_, hc⟩
    · rw [hc, mapLookup_mapInsert_ne s.certs j k w hj]
      exact h
    · rw [hc]
      exact h
  | delOp j o =>
    have hj : k ≠ j := by
      simp only [opAvoids, ne_eq, decide_not, Bool.not_eq_true',
        decide_eq_false_iff_not] at hop
      exact fun hc => hop hc.symm
    rw [step, Delete_certs]
    by_cases hp : (mapLookup s.certs j).isSome
    · rw [if_pos hp, mapLookup_mapErase_ne s.certs j k hj]
      exact h
    · rw [if_neg hp]
      exact h

/-- A run of calls none of which Puts or Deletes `k` preserves the
in-memory binding of `k`. -/
theorem run_preserves_lookup (ops : List Op) :
    ∀ (s : CacheState) (k : String) (v : Data),
    (∀ op ∈ ops, opAvoids op k = true) →
    mapLookup s.certs k = some v →
    mapLookup (run s ops).certs k = some v := by
  induction ops with
  | nil =>
    intro s k v _ h
    simpa [run] using h
  | cons op rest ih =>
    intro s k v hav h
    have h1 := step_preserves_lookup s op k v
      (hav op (List.mem_cons_self op rest)) h
    have h2 := ih (step s op) k v
      (fun o ho => hav o (List.mem_cons_of_mem op ho)) h1
    simpa [run, List.foldl_cons] using h2

/-- C1: evaluation of the embedded Get at the failing input. With the
in-memory map empty and the store holding a single row under the key
"other", Get for the absent key "absent" returns that row's data with no
error, instead of the cache-miss sentinel the claim (and the function's own
doc comment) requires: the issued query (`SELECT data FROM t`, the trace's
`selectAll`) carries no key, so rows under other keys are served. -/
theorem c1_get_serves_other_keys_row :
    Get { certs := [], db := { rows := [("other", [1, 2, 3])] } } "absent"
        Outcome.ok =
      ({ certs := [], db := { rows := [("other", [1, 2, 3])] } },
        [SqlOp.selectAll], Except.ok [1, 2, 3]) ∧
    (Get { certs := [], db := { rows := [("other", [1, 2, 3])] } } "absent"
        Outcome.ok).2.2 ≠ Except.error GetErr.cacheMiss := by
  refine ⟨rfl, fun h => ?hc⟩
  exact Except.noConfusion h

/-- C2: after a successful Put(k, v), any sequence of further calls
containing no Put(k, *) and no Delete(k) — Gets of any key and Puts and
Deletes of other keys are allowed — leaves a subsequent Get(k) returning v
with no error: the in-memory entry the Put wrote survives the run, so the
Get serves it whatever the driver outcome of its own store round-trip. -/
theorem c2_put_then_get (s : CacheState) (k : String) (v : Data)
    (o1 o2 o3 : Outcome) (ops : List Op) (og : Outcome)
    (hput : (Put s k v o1 o2 o3).2.2 = none)
    (hops : ∀ op ∈ ops, opAvoids op k = true) :
    (Get (run (Put s k v o1 o2 o3).1 ops) k og).2.2 = Except.ok v := by
  have hc : (Put s k v o1 o2 o3).1.certs = mapInsert s.certs k v := by
    rcases Put_cases s k v o1 o2 o3 with ⟨_, h1⟩ | ⟨h1, _⟩
    · exact h1
    · exact absurd hput h1
  have h0 : mapLookup (Put s k v o1 o2 o3).1.certs k = some v := by
    rw [hc]
    exact mapLookup_mapInsert_self s.certs k v
  have h1 := run_preserves_lookup ops (Put s k v o1 o2 o3).1 k v hops h0
  unfold Get
  rw [h1]

/-- C2 witness: Put "k" ↦ [7] into the empty cache, then run a Get of "x",
a Put of "j", and a Delete of "j" in between; Get "k" still gives [7]. -/
theorem c2_put_then_get_witness :
    (Get (run (Put { certs := [], db := { rows := [] } } "k" [7] Outcome.ok
        Outcome.ok Outcome.ok).1
        [Op.getOp "x" Outcome.ok,
         Op.putOp "j" [8] Outcome.ok Outcome.ok Outcome.ok,
         Op.delOp "j" Outcome.ok]) "k" Outcome.ok).2.2 = Except.ok [7] :=
  c2_put_then_get { certs := [], db := { rows := [] } } "k" [7]
    Outcome.ok Outcome.ok Outcome.ok
    [Op.getOp "x" Outcome.ok,
     Op.putOp "j" [8] Outcome.ok Outcome.ok Outcome.ok,
     Op.delOp "j" Outcome.ok] Outcome.ok (by decide) (by decide)

/-- C3 counterexample: with "k" present in memory and in the store, a
Delete whose store round-trip fails with error code 5 returns that error,
yet the in-memory entry for "k" is gone afterward — the removal precedes
the store call, so the prior state is not restored on failure. -/
theorem c3_delete_failure_counterexample :
    (Delete { certs := [("k", [7])], db := { rows := [("k", [7])] } } "k"
        (Outcome.err 5)).2.2 = some 5 ∧
    (Delete { certs := [("k", [7])], db := { rows := [("k", [7])] } } "k"
        (Outcome.err 5)).1.certs = [] ∧
    ([] : List (String × Data)) ≠ [("k", [7])] := by
  refine ⟨rfl, by decide, by decide⟩

/-- C3 amended: a failed Put leaves the in-memory map exactly as before,
but a failed Delete has already removed the key from the in-memory map
before the store round-trip: the Delete returns the store's error, the key
is unbound in memory afterward, and every other key's binding is
unchanged. -/
theorem c3_failure_state (s : CacheState) (k : String) (v : Data)
    (o1 o2 o3 : Outcome) (c : Nat) :
    ((Put s k v o1 o2 o3).2.2 ≠ none →
      (Put s k v o1 o2 o3).1.certs = s.certs) ∧
    (Delete s k (Outcome.err c)).2.2 = some c ∧
    mapLookup (Delete s k (Outcome.err c)).1.certs k = none ∧
    ∀ j, j ≠ k →
      mapLookup (Delete s k (Outcome.err c)).1.certs j =
        mapLookup s.certs j := by
  refine ⟨?hp, rfl, ?hk, ?hj⟩
  · intro h
    rcases Put_cases s k v o1 o2 o3 with ⟨h1, _⟩ | ⟨_, h2⟩
    · exact absurd h1 h
    · exact h2
  · rw [Delete_certs]
    by_cases hp : (mapLookup s.certs k).isSome
    · rw [if_pos hp]
      exact mapLookup_mapErase_self s.certs k
    · rw [if_neg hp]
      exact Option.not_isSome_iff_eq_none.mp hp
  · intro j hj
    rw [Delete_certs]
    by_cases hp : (mapLookup s.certs k).isSome
    · rw [if_pos hp]
      exact mapLookup_mapErase_ne s.certs k j hj
    · rw [if_neg hp]

/-- C3 amended witness: a Put failing at the UPDATE leaves memory intact;
a Delete failing at the store has removed "k" and kept other keys. -/
theorem c3_failure_state_witness :
    (Put { certs := [("k", [3])], db := { rows := [] } } "k" [5]
        (Outcome.err 9) Outcome.ok Outcome.ok).1.certs = [("k", [3])] ∧
    mapLookup (Delete { certs := [("k", [3])], db := { rows := [] } } "k"
        (Outcome.err 9)).1.certs "k" = none ∧
    mapLookup (Delete { certs := [("k", [3])], db := { rows := [] } } "k"
        (Outcome.err 9)).1.certs "a" = mapLookup [("k", [3])] "a" :=
  ⟨(c3_failure_state { certs := [("k", [3])], db := { rows := [] } } "k"
      [5] (Outcome.err 9) Outcome.ok Outcome.ok 9).1 (by decide),
   (c3_failure_state { certs := [("k", [3])], db := { rows := [] } } "k"
      [5] (Outcome.err 9) Outcome.ok Outcome.ok 9).2.2.1,
   (c3_failure_state { certs := [("k", [3])], db := { rows := [] } } "k"
      [5] (Outcome.err 9) Outcome.ok Outcome.ok 9).2.2.2 "a" (by decide)⟩

/-- C4: if any store step of Put fails — the UPDATE, the RowsAffected
inspection, or the fallback INSERT — Put returns that step's error code
and does not write the key into the in-memory map. -/
theorem c4_put_failure_no_memory_write (s : CacheState) (k : String)
    (v : Data) (o1 o2 o3 : Outcome) :
    ((Put s k v o1 o2 o3).2.2 ≠ none →
      (Put s k v o1 o2 o3).1.certs = s.certs) ∧
    (∀ c, o1 = Outcome.err c → (Put s k v o1 o2 o3).2.2 = some c) ∧
    (∀ c, o1 = Outcome.ok → o2 = Outcome.err c →
      (Put s k v o1 o2 o3).2.2 = some c) ∧
    (∀ c, o1 = Outcome.ok → o2 = Outcome.ok → (dbUpdate s.db k v).2 = 0 →
      o3 = Outcome.err c → (Put s k v o1 o2 o3).2.2 = some c) := by
  refine ⟨?h1, ?h2, ?h3, ?h4⟩
  · intro h
    rcases Put_cases s k v o1 o2 o3 with ⟨h1, _⟩ | ⟨_, h2⟩
    · exact absurd h1 h
    · exact h2
  · rintro c rfl
    rfl
  · rintro c rfl rfl
    rfl
  · rintro c rfl rfl hz rfl
    simp [Put, hz]

/-- C4 witness: a Put whose UPDATE fails with code 4 returns error 4 and
leaves the in-memory map as it was. -/
theorem c4_put_failure_witness :
    (Put { certs := [("a", [1])], db := { rows := [] } } "k" [2]
        (Outcome.err 4) Outcome.ok Outcome.ok).1.certs = [("a", [1])] ∧
    (Put { certs := [("a", [1])], db := { rows := [] } } "k" [2]
        (Outcome.err 4) Outcome.ok Outcome.ok).2.2 = some 4 :=
  ⟨(c4_put_failure_no_memory_write
      { certs := [("a", [1])], db := { rows := [] } } "k" [2]
      (Outcome.err 4) Outcome.ok Outcome.ok).1 (by decide),
   (c4_put_failure_no_memory_write
      { certs := [("a", [1])], db := { rows := [] } } "k" [2]
      (Outcome.err 4) Outcome.ok Outcome.ok).2.1 4 rfl⟩

/-- C5: when the UPDATE and the RowsAffected inspection succeed, Put issues
the fallback INSERT exactly when zero rows were affected; and whatever the
drivers' outcomes, the INSERT is never issued when the UPDATE affected a
row. -/
theorem c5_upsert_two_step (s : CacheState) (k : String) (v : Data) :
    (∀ o3, SqlOp.insert k v ∈ (Put s k v Outcome.ok Outcome.ok o3).2.1 ↔
      (dbUpdate s.db k v).2 = 0) ∧
    (∀ o1 o2 o3, (dbUpdate s.db k v).2 ≠ 0 →
      SqlOp.insert k v ∉ (Put s k v o1 o2 o3).2.1) := by
  constructor
  · intro o3
    by_cases hz : (dbUpdate s.db k v).2 = 0
    · cases o3 <;> simp [Put, hz]
    · simp [Put, hz]
  · intro o1 o2 o3 h
    cases o1 with
    | err c => simp [Put]
    | ok =>
      cases o2 with
      | err c => simp [Put]
      | ok => simp [Put, h]

/-- C5 witness: against a store already holding a row for "k", Put "k"
issues no INSERT. -/
theorem c5_upsert_two_step_witness :
    SqlOp.insert "k" [2] ∉
      (Put { certs := [], db := { rows := [("k", [1])] } } "k" [2]
        Outcome.ok Outcome.ok Outcome.ok).2.1 :=
  (c5_upsert_two_step { certs := [], db := { rows := [("k", [1])] } } "k"
      [2]).2 Outcome.ok Outcome.ok Outcome.ok (by decide)

/-- C6: two successful Puts to the same key followed by Get return the
second payload (never the first), and every store row under that key holds
the second payload: the later Put overwrites the earlier one in both
memory and store. -/
theorem c6_overwrite (s : CacheState) (k : String) (v1 v2 : Data)
    (a1 a2 a3 b1 b2 b3 og : Outcome)
    (_h1 : (Put s k v1 a1 a2 a3).2.2 = none)
    (h2 : (Put (Put s k v1 a1 a2 a3).1 k v2 b1 b2 b3).2.2 = none) :
    (Get (Put (Put s k v1 a1 a2 a3).1 k v2 b1 b2 b3).1 k og).2.2 =
      Except.ok v2 ∧
    ∀ p ∈ (Put (Put s k v1 a1 a2 a3).1 k v2 b1 b2 b3).1.db.rows,
      p.1 = k → p.2 = v2 := by
  constructor
  · have hc : (Put (Put s k v1 a1 a2 a3).1 k v2 b1 b2 b3).1.certs =
        mapInsert (Put s k v1 a1 a2 a3).1.certs k v2 := by
      rcases Put_cases (Put s k v1 a1 a2 a3).1 k v2 b1 b2 b3 with
        ⟨_, hx⟩ | ⟨hx, _⟩
      · exact hx
      · exact absurd h2 hx
    unfold Get
    rw [hc, mapLookup_mapInsert_self]
  · exact Put_db_rows (Put s k v1 a1 a2 a3).1 k v2 b1 b2 b3 h2

/-- C6 witness: Put "k" ↦ [1], Put "k" ↦ [2], then Get "k" gives [2]. -/
theorem c6_overwrite_witness :
    (Get (Put (Put { certs := [], db := { rows := [] } } "k" [1]
        Outcome.ok Outcome.ok Outcome.ok).1 "k" [2]
        Outcome.ok Outcome.ok Outcome.ok).1 "k" Outcome.ok).2.2 =
      Except.ok [2] :=
  (c6_overwrite { certs := [], db := { rows := [] } } "k" [1] [2]
      Outcome.ok Outcome.ok Outcome.ok Outcome.ok Outcome.ok Outcome.ok
      Outcome.ok (by decide) (by decide)).1

/-- C7: Get never mutates the cache state (no read-through population),
and starting from the empty in-memory map every key bound in memory after
any sequence of calls was the target of some Put in that sequence. -/
theorem c7_memory_only_put_targets :
    (∀ (s : CacheState) (k : String) (o : Outcome), (Get s k o).1 = s) ∧
    ∀ (db : DB) (ops : List Op) (j : String),
      j ∈ mapKeys (run { certs := [], db := db } ops).certs →
      j ∈ putKeys ops := by
  refine ⟨Get_state, ?hr⟩
  intro db ops j h
  rcases run_keys ops { certs := [], db := db } j h with h1 | h1
  · simp [mapKeys] at h1
  · exact h1

/-- C7 witness: after a run consisting of one Put of "k", the key "k" found
in memory is indeed among the run's Put targets. -/
theorem c7_memory_only_put_targets_witness :
    "k" ∈ putKeys [Op.putOp "k" [1] Outcome.ok Outcome.ok Outcome.ok] :=
  c7_memory_only_put_targets.2 { rows := [] }
    [Op.putOp "k" [1] Outcome.ok Outcome.ok Outcome.ok] "k" (by decide)

/-- C8: Get's store fetch does not depend on the key argument: for two
keys both absent from the in-memory map, the entire outcome of Get —
resulting state, issued SQL trace, and payload or error — is identical. -/
theorem c8_get_fetch_key_independent (s : CacheState) (k1 k2 : String)
    (o : Outcome) (h1 : mapLookup s.certs k1 = none)
    (h2 : mapLookup s.certs k2 = none) :
    Get s k1 o = Get s k2 o := by
  unfold Get
  rw [h1, h2]

/-- C8 witness: two distinct keys absent from memory give the same Get
outcome against the same store state. -/
theorem c8_get_fetch_key_independent_witness :
    Get { certs := [("a", [1])], db := { rows := [("x", [9])] } } "k1"
        Outcome.ok =
      Get { certs := [("a", [1])], db := { rows := [("x", [9])] } } "k2"
        Outcome.ok :=
  c8_get_fetch_key_independent
    { certs := [("a", [1])], db := { rows := [("x", [9])] } } "k1" "k2"
    Outcome.ok (by decide) (by decide)

/-- C9: when the store delete round-trip succeeds, Delete returns success
— even when the key is absent from both memory and store — the key is
unbound in memory afterward, and every other key's binding is untouched. -/
theorem c9_idempotent_delete (s : CacheState) (k : String) :
    (Delete s k Outcome.ok).2.2 = none ∧
    mapLookup (Delete s k Outcome.ok).1.certs k = none ∧
    ∀ j, j ≠ k → mapLookup (Delete s k Outcome.ok).1.certs j =
      mapLookup s.certs j := by
  refine ⟨rfl, ?hk, ?hj⟩
  · rw [Delete_certs]
    by_cases hp : (mapLookup s.certs k).isSome
    · rw [if_pos hp]
      exact mapLookup_mapErase_self s.certs k
    · rw [if_neg hp]
      exact Option.not_isSome_iff_eq_none.mp hp
  · intro j hj
    rw [Delete_certs]
    by_cases hp : (mapLookup s.certs k).isSome
    · rw [if_pos hp]
      exact mapLookup_mapErase_ne s.certs k j hj
    · rw [if_neg hp]

/-- C9 witness: deleting the never-written key "never" succeeds and keeps
the unrelated binding of "a". -/
theorem c9_idempotent_delete_witness :
    (Delete { certs := [("a", [1])], db := { rows := [] } } "never"
        Outcome.ok).2.2 = none ∧
    mapLookup (Delete { certs := [("a", [1])], db := { rows := [] } }
        "never" Outcome.ok).1.certs "a" = mapLookup [("a", [1])] "a" :=
  ⟨(c9_idempotent_delete
      { certs := [("a", [1])], db := { rows := [] } } "never").1,
   (c9_idempotent_delete
      { certs := [("a", [1])], db := { rows := [] } } "never").2.2 "a"
      (by decide)⟩

/-- C10: New rejects a table name that is blank after trimming with the
config error, producing no cache and issuing no store operation; for a
non-blank name it issues the create-table bootstrap and returns a ready
cache with an empty in-memory map on success, or the bootstrap's error and
no cache on failure. -/
theorem c10_new_validation (tableName : String) (o : Outcome) :
    (trimSpace tableName = "" →
      New tableName o = ([], Except.error NewErr.configError)) ∧
    (trimSpace tableName ≠ "" →
      (New tableName o).1 = [SqlOp.createTable tableName] ∧
      (o = Outcome.ok →
        ∃ cache, (New tableName o).2 = Except.ok cache ∧ cache.certs = []) ∧
      (∀ c, o = Outcome.err c →
        (New tableName o).2 = Except.error (NewErr.storeErr c))) := by
  constructor
  · intro h
    simp [New, h]
  · intro h
    refine ⟨?ht, ?hs, ?hf⟩
    · cases o <;> simp [New, h]
    · rintro rfl
      have he : (New tableName Outcome.ok).2 =
          Except.ok
            ⟨[], "SELECT data FROM " ++ tableName,
              "INSERT INTO " ++ tableName ++ " (key, data) VALUES($1, $2)",
              "UPDATE " ++ tableName ++ " SET data = $2 WHERE key = $1",
              "DELETE FROM " ++ tableName ++ " WHERE key = $1"⟩ := by
        simp [New, h]
      exact ⟨_, he, rfl⟩
    · rintro c rfl
      simp [New, h]

/-- C10 witness: the all-blank name "   " is rejected without touching the
store; the name "certs" yields the bootstrap trace, a cache on success,
and the store's error code 7 on bootstrap failure. -/
theorem c10_new_validation_witness :
    New "   " Outcome.ok = ([], Except.error NewErr.configError) ∧
    (New "certs" Outcome.ok).1 = [SqlOp.createTable "certs"] ∧
    (New "certs" (Outcome.err 7)).2 =
      Except.error (NewErr.storeErr 7) :=
  ⟨(c10_new_validation "   " Outcome.ok).1 (by decide),
   ((c10_new_validation "certs" Outcome.ok).2 (by decide)).1,
   ((c10_new_validation "certs" (Outcome.err 7)).2 (by decide)).2.2 7 rfl⟩

end Sqlcertcache
